import Mathlib

/-
Verification of the Friday frontend and host-automation scripts.

Shallow embedding of:
  - src/fix-and-verify.ps1 and src/doctor.ps1 (bake-and-verify step, frontend doctor)
  - src/lib/apiBase.ts and the single-variable API client (base-URL resolution)
  - src/src/components/MultiUploader.tsx (processOne, startAll, pollStatusUntilDone)
  - src/src/hooks/useSSEJob.ts (stop, onerror)
  - the JSON fetch helper jfetch and src/src/api.js pingHealth
  - src/friday-client.ps1 Invoke-WithRetry
-/

/-! ## String scanning primitives

PowerShell `-match` with `[regex]::Escape(...)` is a literal substring search;
the two concrete patterns the doctor script uses (a relative `fetch(`-quote-`/api/`
call and a `"status" : "ok"` JSON fragment) are modelled by direct scanners. -/

def startsWithL : List Char → List Char → Bool
  | [], _ => true
  | _ :: _, [] => false
  | p :: ps, c :: cs => p == c && startsWithL ps cs

def containsL (pat : List Char) : List Char → Bool
  | [] => startsWithL pat []
  | c :: cs => startsWithL pat (c :: cs) || containsL pat cs

/-- Literal substring search: `-match [regex]::Escape(pat)` / JS `includes`. -/
def containsSub (s pat : String) : Bool := containsL pat.data s.data

def endsWithL (pat s : List Char) : Bool := startsWithL pat.reverse s.reverse

/-- Match of the doctor's pattern `fetch\(\s*['"]\/api/` at the head of the list. -/
def relFetchAt (cs : List Char) : Bool :=
  startsWithL "fetch(".data cs &&
    (match (cs.drop 6).dropWhile (fun c => c.isWhitespace) with
     | [] => false
     | q :: rest => (q == '\'' || q == '"') && startsWithL "/api/".data rest)

def relFetchAnyL : List Char → Bool
  | [] => false
  | c :: cs => relFetchAt (c :: cs) || relFetchAnyL cs

/-- `$bundle.Content -match "fetch\(\s*['\""]\/api/"` from the doctor script. -/
def relFetchDoctor (s : String) : Bool := relFetchAnyL s.data

/-- Match of the doctor's pattern `"status"\s*:\s*"ok"` at the head of the list. -/
def statusOkAt (cs : List Char) : Bool :=
  startsWithL "\"status\"".data cs &&
    (match (cs.drop 8).dropWhile (fun c => c.isWhitespace) with
     | ':' :: rest => startsWithL "\"ok\"".data (rest.dropWhile (fun c => c.isWhitespace))
     | _ => false)

def statusOkAnyL : List Char → Bool
  | [] => false
  | c :: cs => statusOkAt (c :: cs) || statusOkAnyL cs

/-- `$get.Content -match '"status"\s*:\s*"ok"'` from the doctor script. -/
def containsStatusOk (s : String) : Bool := statusOkAnyL s.data

/-! ## JavaScript truthiness over optional string environment values -/

/-- JS truthiness of an optional string: `undefined` and `""` are falsy. -/
def truthy : Option String → Bool
  | none => false
  | some s => !(s == "")

/-- JS `a || b` where `a` is an optional string and `b` a string. -/
def jsOr (a : Option String) (b : String) : String :=
  match a with
  | some s => if s = "" then b else s
  | none => b

/-- JS `String.prototype.trim`: strip whitespace from both ends. -/
def jsTrim (s : String) : String :=
  String.mk (((s.data.dropWhile Char.isWhitespace).reverse.dropWhile Char.isWhitespace).reverse)

/-! ## Base-URL resolution (src/lib/apiBase.ts and the single-variable client) -/

/-- `src/lib/apiBase.ts`:
`VITE_API_BASE || NEXT_PUBLIC_API_BASE || REACT_APP_API_BASE || ""`. -/
def API_BASE_lib (vite nextPublic reactApp : Option String) : String :=
  jsOr vite (jsOr nextPublic (jsOr reactApp ""))

/-- The single-variable client's default base:
`(typeof window !== "undefined" && origin + "/api") || "http://localhost:8000/api"`. -/
def defaultBase (windowOrigin : Option String) : String :=
  match windowOrigin with
  | some o => o ++ "/api"
  | none => "http://localhost:8000/api"

/-- The single-variable client:
`envBase = VITE_API_BASE?.trim(); API_BASE = envBase || defaultBase`. -/
def API_BASE_client (vite : Option String) (windowOrigin : Option String) : String :=
  jsOr (vite.map jsTrim) (defaultBase windowOrigin)

/-! ## Bake-and-verify (src/fix-and-verify.ps1 step 3, src/doctor.ps1 step 4) -/

structure JsFile where
  name : String
  size : Nat
  content : String

def isJsName (n : String) : Bool := endsWithL ".js".data n.data

/-- `Sort-Object Length -Descending | Select-Object -First 1`: first file of
maximal size (PowerShell's sort is stable, so ties keep the earlier file). -/
def pickLargest : List JsFile → Option JsFile
  | [] => none
  | f :: fs =>
    match pickLargest fs with
    | none => some f
    | some g => if g.size > f.size then some g else some f

/-- `Get-ChildItem $assetsDir -Filter *.js | Sort-Object Length -Descending | Select -First 1`. -/
def pickBundle (files : List JsFile) : Option JsFile :=
  pickLargest (files.filter (fun f => isJsName f.name))

/-- Exit code of the verify step: `Fail` (exit 1) when no built JS exists, and
when the chosen bundle does not contain the needle (`[regex]::Escape($Backend)`
in fix-and-verify.ps1, the backend hostname in the doctor variant); 0 otherwise. -/
def verifyBakedExit (needle : String) (files : List JsFile) : Nat :=
  match pickBundle files with
  | none => 1
  | some b => if containsSub b.content needle then 0 else 1

/-! ## Multi-file upload widget (src/src/components/MultiUploader.tsx) -/

inductive Stage
  | queued
  | signing
  | uploading
  | confirming
  | processing
  | done
  | error
  deriving DecidableEq, Repr

/-- Presign response as seen after `.then(r => r.json()).catch(e => ({ok:false,...}))`. -/
structure PresignResp where
  ok : Bool
  url : Option String
  s3uri : Option String

/-- The guard `!ask?.ok || !ask.url || !ask.s3_uri` (negated): a presigned URL and
a storage locator must both be present (truthy). -/
def presignOk (p : PresignResp) : Bool := p.ok && truthy p.url && truthy p.s3uri

/-- Status response as seen after `.then(r => r.json()).catch(() => null)`:
`none` models a failed fetch or unparseable body. -/
structure RStat where
  ok : Bool
  status : String
  deriving DecidableEq, Repr

/-- Terminal outcome a poll response reports: `done` or `error` job status on a
response with `ok`; anything else continues the loop. -/
def terminalStage (r : Option RStat) : Option Stage :=
  match r with
  | some j =>
    if j.ok then
      (if j.status = "done" then some Stage.done
       else if j.status = "error" then some Stage.error
       else none)
    else none
  | none => none

/-- First terminal status among the poll responses, if any. -/
def pollFinal : List (Option RStat) → Option Stage
  | [] => none
  | r :: rest =>
    match terminalStage r with
    | some s => some s
    | none => pollFinal rest

/-- Environment outcomes a single item's processing run can observe. -/
structure Outcomes where
  presign : PresignResp
  put : Except String Unit
  confirm : Bool
  polls : List (Option RStat)

def pollTailStage (polls : List (Option RStat)) : List Stage :=
  match pollFinal polls with
  | some s => [s]
  | none => []

/-- Successive values `patch` writes to the item's `stage` field during
`processOne` (the item starts in `queued`). -/
def processOneStages (o : Outcomes) : List Stage :=
  if presignOk o.presign = false then [Stage.signing, Stage.error]
  else
    match o.put with
    | Except.error _ => [Stage.signing, Stage.uploading, Stage.error]
    | Except.ok _ =>
      if o.confirm = false then [Stage.signing, Stage.uploading, Stage.confirming, Stage.error]
      else [Stage.signing, Stage.uploading, Stage.confirming, Stage.processing] ++
        pollTailStage o.polls

/-- The transitions the spec's per-item state machine allows (early `error` exit
from any active stage included). -/
def nextOk : Stage → Stage → Bool
  | Stage.queued, Stage.signing => true
  | Stage.signing, Stage.uploading => true
  | Stage.signing, Stage.error => true
  | Stage.uploading, Stage.confirming => true
  | Stage.uploading, Stage.error => true
  | Stage.confirming, Stage.processing => true
  | Stage.confirming, Stage.error => true
  | Stage.processing, Stage.done => true
  | Stage.processing, Stage.error => true
  | _, _ => false

def chainOk : Stage → List Stage → Bool
  | _, [] => true
  | s, t :: ts => nextOk s t && chainOk t ts

/-- Stage the item is left in once `processOne` returns (or where it is stuck
when the status poll never reports a terminal state). -/
def finalStage (o : Outcomes) : Stage := (processOneStages o).getLastD Stage.queued

/-- An item whose poll loop never observes a terminal status keeps `startAll`
awaiting forever: everything up to the poll succeeded but no poll is terminal. -/
def itemBlocks (o : Outcomes) : Bool :=
  presignOk o.presign && o.put.isOk && o.confirm && (pollFinal o.polls).isNone

def startAllGo : List (Stage × Outcomes) → List Stage
  | [] => []
  | (st, o) :: rest =>
    if st = Stage.queued ∨ st = Stage.error then
      (if itemBlocks o then finalStage o :: rest.map Prod.fst
       else finalStage o :: startAllGo rest)
    else st :: startAllGo rest

/-- `startAll`: alert-and-return when `API_BASE` is empty, else sequentially
`await processOne(it)` for every item whose stage is `queued` or `error`. -/
def startAll (apiBase : String) (items : List (Stage × Outcomes)) : List Stage :=
  if apiBase = "" then items.map Prod.fst else startAllGo items

/-- What one driver pass does to a single item, in isolation. -/
def stepItem (p : Stage × Outcomes) : Stage :=
  if p.1 = Stage.queued ∨ p.1 = Stage.error then finalStage p.2 else p.1

/-- The item failed at presign, PUT, confirm, or server-side processing. -/
def procFails (o : Outcomes) : Bool :=
  !presignOk o.presign || !o.put.isOk || !o.confirm ||
    (pollFinal o.polls == some Stage.error)

/-! ## Polling loop timing (pollStatusUntilDone) -/

inductive PollEvent
  | get (r : Option RStat)
  | sleep (ms : Nat)
  deriving DecidableEq, Repr

/-- `pollStatusUntilDone`: one awaited GET per iteration; on a non-terminal
response, `await setTimeout(1200)` and loop; break on `done`/`error`. The
event list records the GETs and sleeps in order; the second component is the
terminal stage observed (`none` when the responses run out non-terminal). -/
def pollRun : List (Option RStat) → List PollEvent × Option Stage
  | [] => ([], none)
  | r :: rest =>
    match terminalStage r with
    | some s => ([PollEvent.get r], some s)
    | none =>
      let p := pollRun rest
      (PollEvent.get r :: PollEvent.sleep 1200 :: p.1, p.2)

/-- GETs separated by exactly one 1200 ms sleep, ending on a GET. -/
def interleave1200 : List (Option RStat) → List PollEvent
  | [] => []
  | [r] => [PollEvent.get r]
  | r :: rest => PollEvent.get r :: PollEvent.sleep 1200 :: interleave1200 rest

/-! ## Streaming-status hook (src/src/hooks/useSSEJob.ts) -/

/-- Hook connection state: the open `EventSource` (by id) and the log of
connections that have been closed. -/
structure SSEState where
  es : Option Nat
  closedLog : List Nat

/-- `stop`: `es?.close(); es = null`. -/
def sseStop (s : SSEState) : SSEState :=
  match s.es with
  | some c => { es := none, closedLog := c :: s.closedLog }
  | none => s

/-- `es.onerror`: `es?.close(); es = null` (same body as `stop`). -/
def sseOnError (s : SSEState) : SSEState :=
  match s.es with
  | some c => { es := none, closedLog := c :: s.closedLog }
  | none => s

/-! ## Frontend doctor (src/doctor.ps1, auto-check variant) -/

/-- OPTIONS preflight response: status and the
`access-control-allow-origin` header, when present. -/
structure PreResp where
  status : Nat
  acao : Option String

/-- GET response: status and body content. -/
structure GetResp where
  status : Nat
  content : String

/-- One doctor run's observations: the two CORS requests (exceptions modelled
as `Except.error`), the deployed bundle's content when it was located in
index.html and fetched (`none` otherwise), the backend host, and the site. -/
structure DoctorInput where
  preflight : Except String PreResp
  getHealth : Except String GetResp
  bundle : Option String
  backendHost : String
  site : String

/-- Check 1: `($opt.StatusCode -eq 200) -and $acao` (exception ⇒ failed). -/
def preflightPass (i : DoctorInput) : Bool :=
  match i.preflight with
  | Except.ok p => (p.status == 200) && truthy p.acao
  | Except.error _ => false

/-- Check 2: `($get.StatusCode -eq 200) -and ($get.Content -match '"status"\s*:\s*"ok"')`. -/
def getPass (i : DoctorInput) : Bool :=
  match i.getHealth with
  | Except.ok g => (g.status == 200) && containsStatusOk g.content
  | Except.error _ => false

/-- `$hasHost`: set only when the bundle was fetched; `$null` (falsy) otherwise. -/
def hasHostB (i : DoctorInput) : Bool :=
  match i.bundle with
  | some c => containsSub c i.backendHost
  | none => false

/-- `$hasRel`: set only when the bundle was fetched; `$null` (falsy) otherwise. -/
def hasRelB (i : DoctorInput) : Bool :=
  match i.bundle with
  | some c => relFetchDoctor c
  | none => false

inductive Guidance
  | setEnvVar
  | fixRelativeCalls
  | looksGood
  deriving DecidableEq, Repr

/-- Final guidance block: `if (-not $hasHost) {...} elseif ($hasRel) {...} else {...}`. -/
def finalGuidance (i : DoctorInput) : Guidance :=
  if hasHostB i = false then Guidance.setEnvVar
  else if hasRelB i = true then Guidance.fixRelativeCalls
  else Guidance.looksGood

/-- The `Show`/`[PASS]|[FAIL]` lines the doctor prints, one per check performed. -/
def doctorReports (i : DoctorInput) : List (String × Bool) :=
  [("CORS preflight", preflightPass i), ("GET with Origin", getPass i)] ++
    (match i.bundle with
     | some _ => [("bundle includes backend host", hasHostB i),
                  ("no relative api fetches", !hasRelB i)]
     | none => [("bundle located and fetched", false)])

/-! ## JSON fetch helper (jfetch, src/unnamed/part_016) -/

/-- The underlying HTTP observation `jfetch` works from: `res.ok`, `res.status`,
`res.statusText`, the outcome of `res.text()`, the content-type header, and the
outcome of `res.json()` (a parse of the body into `α`). -/
structure JResp (α : Type) where
  ok : Bool
  status : Nat
  statusText : String
  textResult : Except String String
  contentType : Option String
  jsonResult : Except String α

/-- `await res.text().catch(() => "")`. -/
def bodyTextOf {α : Type} (r : JResp α) : String :=
  match r.textResult with
  | Except.ok t => t
  | Except.error _ => ""

/-- `(res.headers.get("content-type") || "").includes("application/json")`. -/
def isJsonCT {α : Type} (r : JResp α) : Bool :=
  containsSub (match r.contentType with | some c => c | none => "") "application/json"

/-- `ct.includes("application/json") ? res.json() : res.text()`. -/
def parsedBody {α : Type} (r : JResp α) : Except String (α ⊕ String) :=
  if isJsonCT r then r.jsonResult.map Sum.inl
  else r.textResult.map Sum.inr

/-- `jfetch`: on `!res.ok`, read the body (`catch` ⇒ `""`) and throw
`` `${res.status} ${res.statusText} :: ${text}` ``; otherwise return the body
parsed according to the content type. -/
def jfetch {α : Type} (r : JResp α) : Except String (α ⊕ String) :=
  if r.ok = false then
    Except.error (toString r.status ++ " " ++ r.statusText ++ " :: " ++ bodyTextOf r)
  else parsedBody r

/-! ## Smoke-test retry helper (src/friday-client.ps1, Invoke-WithRetry) -/

/-- `for (i=1; i -le Retries; i++) { try return action; catch { if (i -lt Retries)
sleep (i*1000) else throw } }`, attempt outcomes given by `outa`; `left` is the
number of attempts still allowed after the current one (`Retries - i`). Returns
the sleeps performed (ms) and the final result. -/
def retryGo (outa : Nat → Except String String) (i : Nat) : Nat → List Nat × Except String String
  | 0 => ([], outa i)
  | left + 1 =>
    match outa i with
    | Except.ok a => ([], Except.ok a)
    | Except.error _ =>
      let p := retryGo outa (i + 1) left
      (i * 1000 :: p.1, p.2)

/-- `Invoke-WithRetry` with the default `$Retries = 6`. -/
def invokeWithRetry (outa : Nat → Except String String) : List Nat × Except String String :=
  retryGo outa 1 5

/-- Sleeps of a linear backoff: `[1000, 2000, ..., k*1000]`. -/
def sleepList (k : Nat) : List Nat := (List.range k).map (fun n => (n + 1) * 1000)

/-! ## Health-check helper (src/src/api.js, pingHealth) -/

/-- The parsed JSON body as `json?.status` sees it: `null`, or an object with
an optional `status` field. -/
inductive Jsonish
  | jnull
  | jobj (status : Option String)
  deriving DecidableEq, Repr

/-- `json?.status === "ok"`. -/
def statusIsOk : Jsonish → Bool
  | Jsonish.jnull => false
  | Jsonish.jobj s => s == some "ok"

/-- Network outcome of `fetch`: rejection, or a response with `res.ok`,
`res.status` and the outcome of `res.json()`. -/
inductive FetchOutcome
  | netError (e : String)
  | resp (ok : Bool) (status : Nat) (body : Except String Jsonish)

/-- Value `pingHealth` returns: `ok` flag plus either the parsed `json` or
a stringified `error`. -/
structure PingResult where
  ok : Bool
  json : Option Jsonish
  error : Option String
  deriving DecidableEq, Repr

/-- `pingHealth`: try fetch; `!res.ok` throws `` `HTTP ${res.status}` ``; any
thrown error is caught and returned as `{ok:false, error:String(err)}`;
otherwise `{ok: json?.status === "ok", json}`. -/
def pingHealth (o : FetchOutcome) : PingResult :=
  match o with
  | FetchOutcome.netError e => { ok := false, json := none, error := some e }
  | FetchOutcome.resp rok st body =>
    if rok = false then
      { ok := false, json := none, error := some ("Error: HTTP " ++ toString st) }
    else
      match body with
      | Except.error e => { ok := false, json := none, error := some e }
      | Except.ok j => { ok := statusIsOk j, json := some j, error := none }

/-! ## Concrete inputs used by counterexamples and witnesses -/

def c1content : String := "const u=\"https://api.example-backend.test\";fetch('/api/chat');"

def c1file : JsFile := { name := "index-abc.js", size := 61, content := c1content }

/-- An item run where everything succeeds and the first poll reports `done`. -/
def oW : Outcomes :=
  { presign := { ok := true, url := some "https://s3.test/put", s3uri := some "s3://b/k" },
    put := Except.ok (),
    confirm := true,
    polls := [some { ok := true, status := "done" }] }

/-- An item run that fails at presign. -/
def oFailW : Outcomes :=
  { presign := { ok := false, url := none, s3uri := none },
    put := Except.error "unreached",
    confirm := false,
    polls := [] }

/-- A two-item batch: a failing item followed by a succeeding one. -/
def cItems : List (Stage × Outcomes) := [(Stage.queued, oFailW), (Stage.queued, oW)]

/-- A non-terminal poll response (`processing`). -/
def cPollA : Option RStat := some { ok := true, status := "processing" }

/-- A terminal poll response (`done`). -/
def cPollB : Option RStat := some { ok := true, status := "done" }

/-- A preflight that got a 200 with an allow-origin header naming a different
origin than the site under test. -/
def dInMismatch : DoctorInput :=
  { preflight := Except.ok { status := 200, acao := some "https://other.example" },
    getHealth := Except.error "down",
    bundle := some "x",
    backendHost := "h",
    site := "https://site.example" }

/-- A run whose CORS checks both fail but whose deployed bundle is clean. -/
def dInCorsFail : DoctorInput :=
  { preflight := Except.error "blocked",
    getHealth := Except.error "blocked",
    bundle := some "const u=\"https://api.backend.test\";",
    backendHost := "api.backend.test",
    site := "https://site.example" }

/-- A run whose bundle lacks the backend host. -/
def dInNoHost : DoctorInput :=
  { preflight := Except.ok { status := 200, acao := some "https://site.example" },
    getHealth := Except.error "down",
    bundle := some "const u=1;",
    backendHost := "api.backend.test",
    site := "https://site.example" }

/-- A failing HTTP observation for the jfetch witness. -/
def rCerr : JResp String :=
  { ok := false, status := 404, statusText := "Not Found",
    textResult := Except.ok "missing", contentType := some "text/plain",
    jsonResult := Except.error "not json" }

/-- A succeeding JSON HTTP observation for the jfetch witness. -/
def rCok : JResp String :=
  { ok := true, status := 200, statusText := "OK",
    textResult := Except.ok "{}", contentType := some "application/json",
    jsonResult := Except.ok "parsed" }

/-- Attempt outcomes that fail twice, then succeed. -/
def outaW : Nat → Except String String :=
  fun i => if i < 3 then Except.error "boom" else Except.ok "yay"

/-- A healthy fetch outcome for the pingHealth witness. -/
def oPing : FetchOutcome :=
  FetchOutcome.resp true 200 (Except.ok (Jsonish.jobj (some "ok")))

/-! ## C1: bake-and-verify exit behaviour -/

/-- C1 (counterexample): a largest built bundle that contains the backend
hostname but still contains a relative `fetch('/api` call site makes the
verify step exit 0, so "exit 0 only if ... contains no remaining relative
fetch('/api call site" fails on the code. -/
theorem c1_counterexample :
    verifyBakedExit "api.example-backend.test" [c1file] = 0 ∧
    containsSub c1content "fetch('/api" = true := by
  constructor
  · rfl
  · rfl

/-- C1 (amended): the verify step exits 0 exactly when a built `.js` file
exists and the largest one contains the backend needle as a substring; no
relative-`/api`-fetch check is performed there. -/
theorem verifyBaked_exit_iff (needle : String) (files : List JsFile) :
    verifyBakedExit needle files = 0 ↔
      ∃ b, pickBundle files = some b ∧ containsSub b.content needle = true := by
  unfold verifyBakedExit
  cases h : pickBundle files with
  | none => simp
  | some b =>
    by_cases hc : containsSub b.content needle
    · simp [hc]
    · simp [hc]

/-! ## C2: base-URL resolution precedence -/

/-- C2 (counterexample): in the three-convention module, with all three
variables unset the resolved base is the empty string, not the page origin
with an `/api` suffix. -/
theorem c2_counterexample :
    API_BASE_lib none none none = "" ∧
    endsWithL "/api".data (API_BASE_lib none none none).data = false := by
  constructor
  · rfl
  · rfl

/-- C2 (amended): the three-convention module resolves VITE_API_BASE, else
NEXT_PUBLIC_API_BASE, else REACT_APP_API_BASE, else the empty string; the
origin-plus-`/api` and localhost fallbacks belong to the separate
single-variable client, which consults only VITE_API_BASE. -/
theorem apiBase_resolution (v n r origin : String)
    (hv : v ≠ "") (hn : n ≠ "") (hr : r ≠ "") (hvt : jsTrim v ≠ "") :
    API_BASE_lib (some v) (some n) (some r) = v ∧
    API_BASE_lib none (some n) (some r) = n ∧
    API_BASE_lib none none (some r) = r ∧
    API_BASE_lib none none none = "" ∧
    API_BASE_client (some v) (some origin) = jsTrim v ∧
    API_BASE_client none (some origin) = origin ++ "/api" ∧
    API_BASE_client none none = "http://localhost:8000/api" := by
  unfold API_BASE_lib API_BASE_client jsOr defaultBase
  simp [hv, hn, hr, hvt]

/-- C2 (witness): the amended resolution at concrete values. -/
theorem apiBase_resolution_witness :
    API_BASE_lib (some "https://a.test") (some "https://b.test") (some "https://c.test")
        = "https://a.test" ∧
    API_BASE_lib none (some "https://b.test") (some "https://c.test") = "https://b.test" ∧
    API_BASE_lib none none (some "https://c.test") = "https://c.test" ∧
    API_BASE_lib none none none = "" ∧
    API_BASE_client (some "https://a.test") (some "https://o.test") = jsTrim "https://a.test" ∧
    API_BASE_client none (some "https://o.test") = "https://o.test" ++ "/api" ∧
    API_BASE_client none none = "http://localhost:8000/api" :=
  apiBase_resolution "https://a.test" "https://b.test" "https://c.test" "https://o.test"
    (by decide) (by decide) (by decide) (by decide)

/-! ## C3: per-item stage machine -/

lemma terminalStage_cases (r : Option RStat) (s : Stage) (h : terminalStage r = some s) :
    s = Stage.done ∨ s = Stage.error := by
  cases r with
  | none => simp [terminalStage] at h
  | some j =>
    cases hj : j.ok with
    | false => simp [terminalStage, hj] at h
    | true =>
      simp only [terminalStage, hj, if_true] at h
      split_ifs at h with h1 h2 <;> simp_all

lemma pollFinal_terminal (ps : List (Option RStat)) (s : Stage) (h : pollFinal ps = some s) :
    s = Stage.done ∨ s = Stage.error := by
  induction ps with
  | nil => simp [pollFinal] at h
  | cons r rest ih =>
    simp only [pollFinal] at h
    cases ht : terminalStage r with
    | some t =>
      rw [ht] at h
      exact terminalStage_cases r s (by rw [ht, Option.some_inj.mp h])
    | none =>
      rw [ht] at h
      exact ih h

/-- C3: during `processOne` the item's stage advances only along
queued → signing → uploading → confirming → processing (with an error exit
from any active stage); when the status poll eventually reports a terminal
job status the run ends in `done` or `error`; `uploading` requires a
presigned URL and storage locator, `confirming` a completed transfer, and
`processing` the backend's acknowledgement; a `done` end requires the poll
to have reported `done`. -/
theorem processOne_stage_machine (o : Outcomes) (h : (pollFinal o.polls).isSome = true) :
    chainOk Stage.queued (processOneStages o) = true ∧
    ((processOneStages o).getLastD Stage.queued = Stage.done ∨
      (processOneStages o).getLastD Stage.queued = Stage.error) ∧
    (Stage.uploading ∈ processOneStages o → presignOk o.presign = true) ∧
    (Stage.confirming ∈ processOneStages o →
      presignOk o.presign = true ∧ o.put.isOk = true) ∧
    (Stage.processing ∈ processOneStages o →
      presignOk o.presign = true ∧ o.put.isOk = true ∧ o.confirm = true) ∧
    (Stage.done ∈ processOneStages o → pollFinal o.polls = some Stage.done) := by
  by_cases hp : presignOk o.presign = false
  · simp [processOneStages, hp, chainOk, nextOk]
  · have hp2 : presignOk o.presign = true := by
      revert hp; cases presignOk o.presign <;> simp
    cases hput : o.put with
    | error e => simp [processOneStages, hp, hput, chainOk, nextOk]
    | ok u =>
      by_cases hc : o.confirm = false
      · simp [processOneStages, hp, hput, hc, chainOk, nextOk, hp2, Except.isOk, Except.toBool]
      · have hc2 : o.confirm = true := by
          revert hc; cases o.confirm <;> simp
        cases hpf : pollFinal o.polls with
        | none => rw [hpf] at h; simp at h
        | some s =>
          rcases pollFinal_terminal _ _ hpf with rfl | rfl <;>
            simp [processOneStages, hp, hput, hc, pollTailStage, hpf, chainOk, nextOk,
              hp2, hc2, Except.isOk, Except.toBool]

/-- C3 (witness): the stage machine at a concrete fully-successful run. -/
theorem processOne_stage_machine_witness :
    (pollFinal oW.polls).isSome = true ∧
    chainOk Stage.queued (processOneStages oW) = true :=
  ⟨by decide, (processOne_stage_machine oW (by decide)).1⟩

/-! ## C4: batch isolation -/

lemma startAllGo_map (items : List (Stage × Outcomes))
    (hnb : ∀ p ∈ items, itemBlocks p.2 = false) :
    startAllGo items = items.map stepItem := by
  induction items with
  | nil => simp [startAllGo]
  | cons p rest ih =>
    obtain ⟨st, o⟩ := p
    have hhead : itemBlocks o = false := hnb (st, o) (by simp)
    have hrest : ∀ q ∈ rest, itemBlocks q.2 = false := fun q hq => hnb q (by simp [hq])
    by_cases hst : st = Stage.queued ∨ st = Stage.error
    · simp [startAllGo, hst, hhead, stepItem, ih hrest]
    · simp [startAllGo, hst, stepItem, ih hrest]

/-- C4: with a non-empty API base, and no item whose status poll hangs, the
batch driver maps every item to its own outcome independently of its
siblings (so one item's failure never prevents another from being
attempted), and an item that fails at presign, PUT, confirm or server-side
processing ends in `error` alone. -/
theorem startAll_batch_isolation (base : String) (items : List (Stage × Outcomes))
    (hb : base ≠ "") (hnb : ∀ p ∈ items, itemBlocks p.2 = false) :
    startAll base items = items.map stepItem ∧
    (∀ o : Outcomes, procFails o = true → finalStage o = Stage.error) := by
  constructor
  · unfold startAll
    rw [if_neg hb]
    exact startAllGo_map items hnb
  · intro o hf
    by_cases hp : presignOk o.presign = false
    · simp [finalStage, processOneStages, hp]
    · have hp2 : presignOk o.presign = true := by
        revert hp; cases presignOk o.presign <;> simp
      cases hput : o.put with
      | error e => simp [finalStage, processOneStages, hp, hput]
      | ok u =>
        by_cases hc : o.confirm = false
        · simp [finalStage, processOneStages, hp, hput, hc]
        · have hc2 : o.confirm = true := by
            revert hc; cases o.confirm <;> simp
          have hpe : pollFinal o.polls = some Stage.error := by
            simp [procFails, hp2, hput, hc2, Except.isOk, Except.toBool] at hf
            exact hf
          simp [finalStage, processOneStages, hp, hput, hc, pollTailStage, hpe]

/-- C4 (witness): a batch with a presign-failing item followed by a
succeeding item; the driver still processes both. -/
theorem startAll_batch_isolation_witness :
    startAll "https://b.test" cItems = cItems.map stepItem :=
  (startAll_batch_isolation "https://b.test" cItems (by decide) (by decide)).1

/-! ## C5: polling fallback timing -/

lemma interleave1200_cons (x : Option RStat) (l : List (Option RStat)) (hl : l ≠ []) :
    interleave1200 (x :: l) = PollEvent.get x :: PollEvent.sleep 1200 :: interleave1200 l := by
  cases l with
  | nil => exact absurd rfl hl
  | cons y ys => rfl

/-- C5: the polling loop issues exactly one GET per consumed response, with a
single 1200 ms sleep between consecutive GETs (each GET is awaited before the
sleep that precedes the next, so no two polls overlap), and it stops exactly
at the first response reporting a terminal (`done`/`error`) job status,
returning that status and leaving later responses unconsumed. -/
theorem pollLoop_timing (pre post : List (Option RStat)) (r : Option RStat) (s : Stage)
    (hpre : ∀ x ∈ pre, terminalStage x = none)
    (hr : terminalStage r = some s) :
    pollRun (pre ++ r :: post) = (interleave1200 (pre ++ [r]), some s) := by
  induction pre with
  | nil => simp [pollRun, hr, interleave1200]
  | cons x xs ih =>
    have hx : terminalStage x = none := hpre x (by simp)
    have hxs : ∀ y ∈ xs, terminalStage y = none := fun y hy => hpre y (by simp [hy])
    have hne : xs ++ [r] ≠ [] := by simp
    simp only [List.cons_append]
    rw [interleave1200_cons x (xs ++ [r]) hne]
    simp [pollRun, hx, ih hxs]

/-- C5 (witness): one non-terminal poll followed by a terminal `done` poll:
two GETs separated by one 1200 ms sleep, stopping at the `done`. -/
theorem pollLoop_timing_witness :
    pollRun ([cPollA] ++ cPollB :: []) = (interleave1200 ([cPollA] ++ [cPollB]), some Stage.done) :=
  pollLoop_timing [cPollA] [] cPollB Stage.done (by decide) (by decide)

/-! ## C6: stop idempotency and error-close of the streaming hook -/

/-- C6: `stop` is idempotent — a second `stop` changes nothing, after `stop`
no connection is open, and `stop` with no open connection leaves the state
unchanged without failing — and the transport-error handler closes the open
connection itself (logging the close) and nulls the handle. -/
theorem sseStop_idempotent_closes (s : SSEState) (c : Nat) (log : List Nat) :
    sseStop (sseStop s) = sseStop s ∧
    (sseStop s).es = none ∧
    sseStop { es := none, closedLog := log } = { es := none, closedLog := log } ∧
    sseOnError { es := some c, closedLog := log } = { es := none, closedLog := c :: log } ∧
    (sseOnError s).es = none := by
  obtain ⟨es, lg⟩ := s
  cases es <;> simp [sseStop, sseOnError]

/-! ## C7: doctor script reporting and final guidance -/

/-- C7 (counterexample): (a) a preflight answered 200 with an allow-origin
header naming a different origin than the site is reported as a pass, not a
failure; (b) a run whose CORS checks both fail but whose bundle is clean ends
with the success verdict, not one of the two remediation hints. -/
theorem c7_counterexample :
    (preflightPass dInMismatch = true ∧ dInMismatch.site ≠ "https://other.example") ∧
    (preflightPass dInCorsFail = false ∧ getPass dInCorsFail = false ∧
      finalGuidance dInCorsFail = Guidance.looksGood) := by
  refine ⟨⟨by rfl, by decide⟩, by rfl, by rfl, by rfl⟩

/-- C7 (amended): each check's outcome is always printed as a [PASS]/[FAIL]
line (never silent); the preflight check passes iff the OPTIONS response had
status 200 and any allow-origin header at all — the value is not compared
with the site, so the check's outcome is independent of the site; the final
verdict depends only on the bundle inspection: build-variable hint when the
bundle is missing or lacks the backend host, call-site hint when it has the
host but still matches a relative `fetch(['"]/api/` pattern, and a success
verdict otherwise, even when a CORS check failed. -/
theorem doctor_checks_amended (i : DoctorInput) (site2 : String) :
    ("CORS preflight", preflightPass i) ∈ doctorReports i ∧
    ("GET with Origin", getPass i) ∈ doctorReports i ∧
    preflightPass { i with site := site2 } = preflightPass i ∧
    (preflightPass i = true ↔
      ∃ p, i.preflight = Except.ok p ∧ p.status = 200 ∧ truthy p.acao = true) ∧
    finalGuidance { i with preflight := Except.error "down", getHealth := Except.error "down" }
      = finalGuidance i ∧
    (hasHostB i = false → finalGuidance i = Guidance.setEnvVar) ∧
    (hasHostB i = true → hasRelB i = true → finalGuidance i = Guidance.fixRelativeCalls) ∧
    (hasHostB i = true → hasRelB i = false → finalGuidance i = Guidance.looksGood) := by
  refine ⟨by simp [doctorReports], by simp [doctorReports], rfl, ?_, rfl, ?_, ?_, ?_⟩
  · constructor
    · intro h
      cases hp : i.preflight with
      | error e => simp [preflightPass, hp] at h
      | ok p =>
        simp [preflightPass, hp] at h
        exact ⟨p, rfl, by simpa using h.1, h.2⟩
    · rintro ⟨p, hp, h200, hacao⟩
      simp [preflightPass, hp, h200, hacao]
  · intro h; simp [finalGuidance, h]
  · intro h hr; simp [finalGuidance, h, hr]
  · intro h hr; simp [finalGuidance, h, hr]

/-- C7 (witness): the amended guidance at a run whose bundle lacks the
backend host. -/
theorem doctor_checks_amended_witness :
    finalGuidance dInNoHost = Guidance.setEnvVar :=
  ((((((doctor_checks_amended dInNoHost "https://x.test").2).2).2).2).2).1 (by rfl)

/-! ## C8: JSON fetch helper error behaviour -/

/-- C8: on a non-success status `jfetch` reads the response body and throws
an error whose message carries the status code, the status text and the body
text; on a success status, whenever the body parse/read succeeds it returns
that parsed body without throwing. -/
theorem jfetch_spec {α : Type} (r : JResp α) :
    (r.ok = false →
      jfetch r = Except.error
        (toString r.status ++ " " ++ r.statusText ++ " :: " ++ bodyTextOf r)) ∧
    (∀ v, r.ok = true → parsedBody r = Except.ok v → jfetch r = Except.ok v) := by
  constructor
  · intro h
    simp [jfetch, h]
  · intro v h hp
    simp [jfetch, h, hp]

/-- C8 (witness): a 404 with body "missing" throws `404 Not Found :: missing`;
a 200 JSON response returns its parsed body. -/
theorem jfetch_spec_witness :
    jfetch rCerr = Except.error
      (toString rCerr.status ++ " " ++ rCerr.statusText ++ " :: " ++ bodyTextOf rCerr) ∧
    jfetch rCok = Except.ok (Sum.inl "parsed") :=
  ⟨(jfetch_spec rCerr).1 rfl, (jfetch_spec rCok).2 (Sum.inl "parsed") rfl (by rfl)⟩

/-! ## C9: bounded retry with linear backoff -/

lemma retryGo_ok_here (outa : Nat → Except String String) (i left : Nat) (a : String)
    (h : outa i = Except.ok a) : retryGo outa i left = ([], Except.ok a) := by
  cases left with
  | zero => simp [retryGo, h]
  | succ l => simp [retryGo, h]

lemma range_map_shift (i m : Nat) :
    (List.range (m + 1)).map (fun n => (i + n) * 1000)
      = i * 1000 :: (List.range m).map (fun n => (i + 1 + n) * 1000) := by
  rw [List.range_succ_eq_map]
  simp only [List.map_cons, List.map_map, Nat.add_zero]
  have hf : ((fun n => (i + n) * 1000) ∘ Nat.succ) = fun n => (i + 1 + n) * 1000 := by
    funext n
    simp [Function.comp, Nat.succ_eq_add_one]
    ring
  rw [hf]

lemma retryGo_success (outa : Nat → Except String String) (i k left : Nat) (a : String)
    (hik : i ≤ k) (hk : k ≤ i + left)
    (hfail : ∀ j, i ≤ j → j < k → (outa j).isOk = false)
    (hok : outa k = Except.ok a) :
    retryGo outa i left
      = ((List.range (k - i)).map (fun n => (i + n) * 1000), Except.ok a) := by
  induction left generalizing i with
  | zero =>
    have hik2 : i = k := le_antisymm hik (by omega)
    subst hik2
    simp [retryGo, hok]
  | succ l ih =>
    by_cases hik2 : i = k
    · subst hik2
      rw [retryGo_ok_here outa i (l + 1) a hok]
      simp
    · have hlt : i < k := lt_of_le_of_ne hik hik2
      have hfi : (outa i).isOk = false := hfail i le_rfl hlt
      obtain ⟨e, he⟩ : ∃ e, outa i = Except.error e := by
        cases hoi : outa i with
        | ok b => rw [hoi] at hfi; simp [Except.isOk, Except.toBool] at hfi
        | error e => exact ⟨e, rfl⟩
      have ihr := ih (i + 1) (by omega) (by omega)
        (fun j hj1 hj2 => hfail j (by omega) hj2)
      have hki : k - i = (k - (i + 1)) + 1 := by omega
      rw [hki, range_map_shift]
      simp [retryGo, he, ihr]

lemma retryGo_exhaust (outa : Nat → Except String String) (i left : Nat)
    (hfail : ∀ j, i ≤ j → j < i + left → (outa j).isOk = false) :
    retryGo outa i left
      = ((List.range left).map (fun n => (i + n) * 1000), outa (i + left)) := by
  induction left generalizing i with
  | zero => simp [retryGo]
  | succ l ih =>
    have hfi : (outa i).isOk = false := hfail i le_rfl (by omega)
    obtain ⟨e, he⟩ : ∃ e, outa i = Except.error e := by
      cases hoi : outa i with
      | ok b => rw [hoi] at hfi; simp [Except.isOk, Except.toBool] at hfi
      | error e => exact ⟨e, rfl⟩
    have ihr := ih (i + 1) (fun j hj1 hj2 => hfail j (by omega) (by omega))
    rw [range_map_shift]
    have hidx : i + 1 + l = i + (l + 1) := by omega
    rw [hidx] at ihr
    simp [retryGo, he, ihr]

/-- C9: with the default 6 retries, an action that first succeeds on attempt
`k ≤ 6` is retried with sleeps of 1000·1, 1000·2, … ms between attempts
(linear backoff) and its success value is returned from that attempt
immediately; if all six attempts fail, the helper performs the five backoff
sleeps and rethrows the final attempt's error. -/
theorem invokeWithRetry_spec (outa : Nat → Except String String) (k : Nat) (a : String)
    (h1 : 1 ≤ k) (h6 : k ≤ 6)
    (hfail : ∀ j, 1 ≤ j → j < k → (outa j).isOk = false) :
    (outa k = Except.ok a → invokeWithRetry outa = (sleepList (k - 1), Except.ok a)) ∧
    ((∀ j, 1 ≤ j → j ≤ 6 → (outa j).isOk = false) →
      invokeWithRetry outa = (sleepList 5, outa 6)) := by
  constructor
  · intro hok
    unfold invokeWithRetry sleepList
    rw [retryGo_success outa 1 k 5 a h1 (by omega) hfail hok]
    have hm : (fun n => (1 + n) * 1000) = fun n => (n + 1) * 1000 := by
      funext n; ring
    rw [hm]
  · intro hall
    unfold invokeWithRetry sleepList
    rw [retryGo_exhaust outa 1 5 (fun j hj1 hj2 => hall j hj1 (by omega))]
    have hm : (fun n => (1 + n) * 1000) = fun n => (n + 1) * 1000 := by
      funext n; ring
    rw [hm]

/-- C9 (witness): an action failing twice then succeeding on the third
attempt returns that success after sleeping 1000 ms and 2000 ms. -/
theorem invokeWithRetry_spec_witness :
    invokeWithRetry outaW = (sleepList 2, Except.ok "yay") :=
  (invokeWithRetry_spec outaW 3 "yay" (by omega) (by omega)
      (by
        intro j h1 h2
        have hj : j = 1 ∨ j = 2 := by omega
        rcases hj with rfl | rfl <;> rfl)).1
    (by rfl)

/-! ## C10: pingHealth totality and ok-condition -/

/-- C10: `pingHealth` is a total function of the network outcome (it never
throws); its `ok` field is true exactly when the HTTP response was successful
and the parsed JSON body's `status` field equals "ok"; whenever `ok` is
false the returned value carries an `error` or a `json` field. -/
theorem pingHealth_spec (o : FetchOutcome) :
    ((pingHealth o).ok = true ↔
      ∃ st j, o = FetchOutcome.resp true st (Except.ok j) ∧ statusIsOk j = true) ∧
    ((pingHealth o).ok = false →
      (pingHealth o).error.isSome = true ∨ (pingHealth o).json.isSome = true) := by
  cases o with
  | netError e => simp [pingHealth]
  | resp rok st body =>
    cases rok with
    | false => simp [pingHealth]
    | true =>
      cases body with
      | error e => simp [pingHealth]
      | ok j =>
        constructor
        · constructor
          · intro h
            simp [pingHealth] at h
            exact ⟨st, j, rfl, h⟩
          · rintro ⟨st2, j2, heq, hok⟩
            obtain ⟨rfl, rfl⟩ : st = st2 ∧ j = j2 := by
              cases heq
              exact ⟨rfl, rfl⟩
            simp [pingHealth, hok]
        · intro h
          simp [pingHealth]

/-- C10 (witness): a successful 200 response whose JSON status is "ok"
yields `ok := true`. -/
theorem pingHealth_spec_witness : (pingHealth oPing).ok = true :=
  (pingHealth_spec oPing).1.mpr ⟨200, Jsonish.jobj (some "ok"), rfl, rfl⟩
